import Mathlib

/-!
# pkg/kernel: building a kernel and a disk image

A shallow embedding of `pkg/kernel/kernel.go`.  The five functions of the
package (`Build`, `BuildWithPartConfig`, `build`, `CreateImage`,
`CompilerIdentity`) are sequences of fallible external effects: file
operations and external commands.  They are embedded as state-passing
functions over a `World` (a file system and the trace of the effects issued so
far).  Everything outside the package is a parameter, gathered in `Env`: what
an external command does, which file operation is refused by the system, the
name picked for a scratch directory, the CPU count and the bundled script.

Go `string` and `[]byte` values are both sequences of bytes and are both
modelled by `String`; the conversions between them are the identity.
-/

namespace kernel

/-! ## Errors -/

/-- A Go `error` value: the text that `err.Error()` prints and what
`os.IsNotExist(err)` reports about it. -/
structure Error where
  msg : String
  notExist : Bool
deriving DecidableEq

/-- The call `fmt.Errorf(text)` with no verb: a fresh error with that text. -/
def fmtErrorf0 (text : String) : Error :=
  { msg := text, notExist := false }

/-- The call `fmt.Errorf(text ++ "%v", err)`: a fresh error whose text is `text`
followed by the text of `err`. -/
def fmtErrorf (text : String) (err : Error) : Error :=
  { msg := text ++ err.msg, notExist := false }

/-! ## Durations (`time.Duration`, in nanoseconds) -/

def Second : Nat := 1000000000
def Minute : Nat := 60 * Second
def Hour : Nat := 60 * Minute

/-! ## Paths and the file system -/

/-- The elements of a path: the pieces between its slashes. -/
def splitSlash : List Char → List (List Char)
  | [] => [[]]
  | c :: cs =>
    if c = '/' then [] :: splitSlash cs
    else
      match splitSlash cs with
      | [] => [[c]]
      | x :: xs => (c :: x) :: xs

/-- One element read by `filepath.Clean`; `out` holds the elements kept so
far, last one first.  An empty element and `.` are skipped; `..` removes the
element before it, is dropped at the root, and is kept where nothing can be
removed; any other element is kept. -/
def cleanStep (rooted : Bool) (out : List (List Char)) (elem : List Char) :
    List (List Char) :=
  if elem = [] ∨ elem = ['.'] then out
  else if elem = ['.', '.'] then
    match out with
    | top :: rest => if top = ['.', '.'] then elem :: out else rest
    | [] => if rooted then [] else [elem]
  else elem :: out

/-- The Go library call `filepath.Clean(path)` where the separator is the slash:
repeated slashes, `.` elements and inner `..` elements (with the element
before them) are removed, as are `..` elements at the root; the empty result
is `.`. -/
def filepathClean (path : String) : String :=
  if path = "" then "."
  else
    let rooted := path.data.head? == some '/'
    let out := (splitSlash path.data).foldl (cleanStep rooted) []
    if rooted then String.mk ('/' :: List.intercalate ['/'] out.reverse)
    else if out = [] then "."
    else String.mk (List.intercalate ['/'] out.reverse)

/-- The Go library call `filepath.Join(a, b)` on two elements: the elements from the
first non-empty one on are joined with the separator and the result is
cleaned; with no non-empty element the result is empty. -/
def filepathJoin (a b : String) : String :=
  if a ≠ "" then filepathClean (a ++ "/" ++ b)
  else if b ≠ "" then filepathClean b
  else ""

/-- The function `filepath.FromSlash` on a system whose separator is the
slash. -/
def filepathFromSlash (p : String) : String := p

/-- What a path holds: a regular file with its bytes and permission bits, or
a directory. -/
inductive Node where
  | file (data : String) (mode : Nat)
  | dir
deriving DecidableEq

/-- A file system: what each path holds, if anything. -/
abbrev FS := String → Option Node

/-- The path `p` is the directory `d` itself or lies inside it. -/
def isUnder (d p : String) : Bool :=
  p == d || (d.data ++ ['/']).isPrefixOf p.data

/-- The file system with `n` stored at `p`. -/
def FS.put (fs : FS) (p : String) (n : Node) : FS :=
  fun q => if q = p then some n else fs q

/-- The file system without the entry at `p`. -/
def FS.del (fs : FS) (p : String) : FS :=
  fun q => if q = p then none else fs q

/-- The file system without `d` and without anything inside `d`. -/
def FS.delTree (fs : FS) (d : String) : FS :=
  fun q => if isUnder d q then none else fs q

/-! ## Effects and the world -/

/-- One invocation of `osutil.RunCmd(timeout, dir, bin, args...)`. -/
structure Cmd where
  timeout : Nat
  dir : String
  bin : String
  args : List String
deriving DecidableEq

/-- The effects the package issues. -/
inductive Op where
  | copyFile (src dst : String)
  | writeFile (path data : String)
  | writeExecFile (path data : String)
  | remove (path : String)
  | removeAll (path : String)
  | tempDir (dir pattern : String)
  | chmod (path : String) (mode : Nat)
  | run (c : Cmd)
deriving DecidableEq

/-- An effect that was issued, with the error it returned (`none` for nil). -/
structure Event where
  op : Op
  err : Option Error
deriving DecidableEq

/-- The state the package runs in: the file system and the effects issued so
far, oldest first. -/
structure World where
  fs : FS
  trace : List Event

/-- Everything outside the package.  `exec` is an external program: it may
succeed with its output or fail, and may change the file system in any way.
`fault` is the system refusing a file operation (permissions, disk full, ...):
`some e` makes that operation fail with `e`.  Both see the whole world, so
that the same operation may succeed once and fail later.
`removedBeforeFailure d w p` tells whether a removal of the tree `d` that
fails had already removed `p`. -/
structure Env where
  exec : Cmd → World → Except Error String × FS
  fault : Op → World → Option Error
  tempName : World → String
  numCPU : Nat
  createImageScript : String
  filePerm : Nat
  execPerm : Nat
  removedBeforeFailure : String → World → String → Bool

/-- The world after an effect: the new file system, and the effect appended
to the trace. -/
def World.after (w : World) (op : Op) (err : Option Error) (fs : FS) : World :=
  { fs := fs, trace := w.trace ++ [{ op := op, err := err }] }

/-- The error of a result, `none` when it is a success. -/
def errOf {α : Type} : Except Error α → Option Error
  | .error e => some e
  | .ok _ => none

/-- The error for a path that does not exist. -/
def notExistError (op path : String) : Error :=
  { msg := op ++ " " ++ path ++ ": no such file or directory", notExist := true }

/-- The error for a directory where a file is needed. -/
def isDirError (op path : String) : Error :=
  { msg := op ++ " " ++ path ++ ": is a directory", notExist := false }

/-- The error for a path that exists where a new one is needed. -/
def existError (op path : String) : Error :=
  { msg := op ++ " " ++ path ++ ": file exists", notExist := false }

/-! ## The primitives the package calls

A primitive that succeeds has its documented effect.  One that fails leaves
the file system as it was, except `os.RemoveAll`, which removes what it can
before it fails. -/

/-- Modelled from the spec: `osutil.RunCmd` is not in the source.  Section 4.1:
runs a program with arguments in a working directory under a timeout, returns
the captured output on success and fails otherwise; a single invocation, no
retry. -/
def osutilRunCmd (env : Env) (timeout : Nat) (dir bin : String) (args : List String)
    (w : World) : Except Error String × World :=
  let c : Cmd := { timeout := timeout, dir := dir, bin := bin, args := args }
  let r := env.exec c w
  (r.1, w.after (.run c) (errOf r.1) r.2)

/-- Modelled from the spec: `osutil.CopyFile` is not in the source.  Section
4.2: copies a file verbatim to the destination, and fails if the destination
cannot be written.  It also fails when the source is not a file. -/
def osutilCopyFile (env : Env) (src dst : String) (w : World) : Option Error × World :=
  match env.fault (.copyFile src dst) w with
  | some e => (some e, w.after (.copyFile src dst) (some e) w.fs)
  | none =>
    match w.fs src with
    | some (.file data mode) =>
      (none, w.after (.copyFile src dst) none (w.fs.put dst (.file data mode)))
    | some .dir =>
      (some (isDirError "read" src), w.after (.copyFile src dst) (some (isDirError "read" src)) w.fs)
    | none =>
      (some (notExistError "open" src),
        w.after (.copyFile src dst) (some (notExistError "open" src)) w.fs)

/-- Modelled from the spec: `osutil.WriteFile` is not in the source.  Section
4.2: writes the supplied bytes to the file, with the default file
permissions. -/
def osutilWriteFile (env : Env) (path data : String) (w : World) : Option Error × World :=
  match env.fault (.writeFile path data) w with
  | some e => (some e, w.after (.writeFile path data) (some e) w.fs)
  | none => (none, w.after (.writeFile path data) none (w.fs.put path (.file data env.filePerm)))

/-- Modelled from the spec: `osutil.WriteExecFile` is not in the source.
Section 4.4: materializes the bytes as an executable file. -/
def osutilWriteExecFile (env : Env) (path data : String) (w : World) : Option Error × World :=
  match env.fault (.writeExecFile path data) w with
  | some e => (some e, w.after (.writeExecFile path data) (some e) w.fs)
  | none =>
    (none, w.after (.writeExecFile path data) none (w.fs.put path (.file data env.execPerm)))

/-- The Go library call `os.Remove(path)`: removes the named file or directory; a
path that does not exist is an error that `os.IsNotExist` recognises. -/
def osRemove (env : Env) (path : String) (w : World) : Option Error × World :=
  match env.fault (.remove path) w with
  | some e => (some e, w.after (.remove path) (some e) w.fs)
  | none =>
    match w.fs path with
    | none =>
      (some (notExistError "remove" path),
        w.after (.remove path) (some (notExistError "remove" path)) w.fs)
    | some _ => (none, w.after (.remove path) none (w.fs.del path))

/-- The Go library call `os.RemoveAll(path)`: removes the path and everything it
contains; a path that does not exist is not an error.  When it fails it has
removed what it could: some of the paths inside, and nothing outside. -/
def osRemoveAll (env : Env) (path : String) (w : World) : Option Error × World :=
  match env.fault (.removeAll path) w with
  | some e =>
    (some e, w.after (.removeAll path) (some e)
      (fun q => if isUnder path q && env.removedBeforeFailure path w q then none else w.fs q))
  | none => (none, w.after (.removeAll path) none (w.fs.delTree path))

/-- The Go library call `ioutil.TempDir(dir, pattern)`: creates a new directory under
a name picked by the system and returns that name; the name is never one that
exists already. -/
def ioutilTempDir (env : Env) (dir pattern : String) (w : World) :
    Except Error String × World :=
  match env.fault (.tempDir dir pattern) w with
  | some e => (.error e, w.after (.tempDir dir pattern) (some e) w.fs)
  | none =>
    match w.fs (env.tempName w) with
    | some _ =>
      (.error (existError "mkdir" (env.tempName w)),
        w.after (.tempDir dir pattern) (some (existError "mkdir" (env.tempName w))) w.fs)
    | none =>
      (.ok (env.tempName w),
        w.after (.tempDir dir pattern) none (w.fs.put (env.tempName w) .dir))

/-- The Go library call `os.Chmod(path, mode)`: sets the permission bits of the named
file; a path that does not exist is an error. -/
def osChmod (env : Env) (path : String) (mode : Nat) (w : World) : Option Error × World :=
  match env.fault (.chmod path mode) w with
  | some e => (some e, w.after (.chmod path mode) (some e) w.fs)
  | none =>
    match w.fs path with
    | none =>
      (some (notExistError "chmod" path),
        w.after (.chmod path mode) (some (notExistError "chmod" path)) w.fs)
    | some (.file data _) =>
      (none, w.after (.chmod path mode) none (w.fs.put path (.file data mode)))
    | some .dir => (none, w.after (.chmod path mode) none w.fs)

/-- The Go library call `strconv.Itoa` on a number that is not negative. -/
def strconvItoa (n : Nat) : String := toString n

/-! ## `strings.Split` -/

/-- The Go library call `strings.Index` on the characters of the two strings: the
first position at which `sep` occurs in `s`. -/
def stringsIndex (sep : List Char) : List Char → Option Nat
  | [] => if sep.isPrefixOf [] then some 0 else none
  | c :: cs =>
    if sep.isPrefixOf (c :: cs) then some 0 else (stringsIndex sep cs).map (· + 1)

/-- The loop of `genSplit`: cut at each occurrence of `sep`, the rest of the
string being the last piece.  Each round removes at least one character, so
`fuel` rounds are enough when `fuel` is the length of the string. -/
def genSplitLoop (sep : List Char) : Nat → List Char → List (List Char)
  | 0, s => [s]
  | fuel + 1, s =>
    match stringsIndex sep s with
    | none => [s]
    | some m => s.take m :: genSplitLoop sep fuel (s.drop (m + sep.length))

/-- The Go library call `strings.Split(s, sep)`: with an empty separator the string is
cut into its characters, otherwise at each occurrence of the separator. -/
def stringsSplit (s sep : String) : List String :=
  if sep.data = [] then s.data.map (fun c => String.mk [c])
  else (genSplitLoop sep.data s.data.length s.data).map String.mk

/-! ## The package -/

/-- Source: `build`, kernel.go lines 55-67. -/
def build (env : Env) (dir compiler : String) (w : World) : Option Error × World :=
  let timeout := 10 * Minute
  match osutilRunCmd env timeout dir "make" ["olddefconfig"] w with
  | (.error err, w1) => (some err, w1)
  | (.ok _, w1) =>
    let cpu := strconvItoa env.numCPU
    match osutilRunCmd env (3 * Hour) dir "make" ["bzImage", "-j", cpu, "CC=" ++ compiler] w1 with
    | (.error err, w2) => (some err, w2)
    | (.ok _, w2) => (none, w2)

/-- Source: `Build`, kernel.go lines 27-32. -/
def Build (env : Env) (dir compiler config : String) (w : World) : Option Error × World :=
  match osutilCopyFile env config (filepathJoin dir ".config") w with
  | (some err, w1) => (some (fmtErrorf "failed to write config file: " err), w1)
  | (none, w1) => build env dir compiler w1

/-- Source: `BuildWithPartConfig`, kernel.go lines 43-52: the statements after
the `defer`. -/
def BuildWithPartConfig.body (env : Env) (dir compiler configFile : String) (timeout : Nat)
    (w : World) : Option Error × World :=
  match osutilRunCmd env timeout dir "make" ["defconfig"] w with
  | (.error err, w1) => (some err, w1)
  | (.ok _, w1) =>
    match osutilRunCmd env timeout dir "make" ["kvmconfig"] w1 with
    | (.error err, w2) => (some err, w2)
    | (.ok _, w2) =>
      match osutilRunCmd env timeout dir "scripts/kconfig/merge_config.sh"
          ["-n", ".config", configFile] w2 with
      | (.error err, w3) => (some err, w3)
      | (.ok _, w3) => build env dir compiler w3

/-- Source: `BuildWithPartConfig`, kernel.go lines 35-53.  The result of the
first `os.Remove` is dropped; the deferred `os.Remove` runs once the body has
returned, and its result is dropped as well. -/
def BuildWithPartConfig (env : Env) (dir compiler config : String) (w : World) :
    Option Error × World :=
  let timeout := 10 * Minute
  let w1 := (osRemove env (filepathJoin dir ".config") w).2
  let configFile := filepathJoin dir "syz.config"
  match osutilWriteFile env configFile config w1 with
  | (some err, w2) => (some (fmtErrorf "failed to write config file: " err), w2)
  | (none, w2) =>
    let r := BuildWithPartConfig.body env dir compiler configFile timeout w2
    (r.1, (osRemove env configFile r.2).2)

/-- Source: `CreateImage`, kernel.go lines 78-95: the statements after the
`defer`. -/
def CreateImage.body (env : Env) (kernelDir userspaceDir image sshkey tempDir : String)
    (w : World) : Option Error × World :=
  let scriptFile := filepathJoin tempDir "create.sh"
  match osutilWriteExecFile env scriptFile env.createImageScript w with
  | (some err, w1) => (some (fmtErrorf "failed to write script file: " err), w1)
  | (none, w1) =>
    let bzImage := filepathJoin kernelDir (filepathFromSlash "arch/x86/boot/bzImage")
    match osutilRunCmd env Hour tempDir scriptFile [userspaceDir, bzImage] w1 with
    | (.error err, w2) => (some (fmtErrorf "image build failed: " err), w2)
    | (.ok _, w2) =>
      match osutilCopyFile env (filepathJoin tempDir "disk.raw") image w2 with
      | (some err, w3) => (some err, w3)
      | (none, w3) =>
        match osutilCopyFile env (filepathJoin tempDir "key") sshkey w3 with
        | (some err, w4) => (some err, w4)
        | (none, w4) =>
          match osChmod env sshkey 0o600 w4 with
          | (some err, w5) => (some err, w5)
          | (none, w5) => (none, w5)

/-- Source: `CreateImage`, kernel.go lines 72-96.  The deferred `os.RemoveAll`
runs once the body has returned, and its result is dropped. -/
def CreateImage (env : Env) (kernelDir userspaceDir image sshkey : String) (w : World) :
    Option Error × World :=
  match ioutilTempDir env "" "syz-build" w with
  | (.error err, w1) => (some err, w1)
  | (.ok tempDir, w1) =>
    let r := CreateImage.body env kernelDir userspaceDir image sshkey tempDir w1
    (r.1, (osRemoveAll env tempDir r.2).2)

/-- The value of `xs[0]`: `none` stands for the run-time panic of an index out
of range. -/
def index0 {α : Type} : List α → Option α
  | [] => none
  | x :: _ => some x

/-- Source: `CompilerIdentity`, kernel.go lines 98-107.  The result is `none`
if the function panics, and otherwise the pair it returns. -/
def CompilerIdentity (env : Env) (compiler : String) (w : World) :
    Option (String × Option Error) × World :=
  match osutilRunCmd env Minute "" compiler ["--version"] w with
  | (.error err, w1) => (some ("", some err), w1)
  | (.ok output, w1) =>
    if output.length = 0 then
      (some ("", some (fmtErrorf0 "no output from compiler --version")), w1)
    else
      ((index0 (stringsSplit output "\n")).map (fun line => (line, none)), w1)

/-! ## Concrete worlds, used to run the package on explicit inputs -/

/-- A file system that holds one configuration file, `cfg`. -/
def fs0 : FS := fun p => if p = "cfg" then some (.file "CONFIG_X=y\n" 0o644) else none

/-- A world with the file system `fs0` and no effect issued yet. -/
def w0 : World := { fs := fs0, trace := [] }

/-- What the packaging script leaves in the scratch directory: the disk image
and the key, both readable by everyone. -/
def scriptFS (fs : FS) : FS :=
  (fs.put "/tmp/syz-build1/disk.raw" (.file "DISK" 0o644)).put "/tmp/syz-build1/key"
    (.file "KEY" 0o644)

/-- An environment in which nothing fails: the packaging script produces its
two files, every other command prints a two-line version banner. -/
def okEnv : Env :=
  { exec := fun c w =>
      if c.bin = "/tmp/syz-build1/create.sh" then (.ok "done\n", scriptFS w.fs)
      else (.ok "gcc 10.2\ncopyright 2021\n", w.fs)
    fault := fun _ _ => none
    tempName := fun _ => "/tmp/syz-build1"
    numCPU := 4
    createImageScript := "#!/bin/bash\n"
    filePerm := 0o640
    execPerm := 0o750
    removedBeforeFailure := fun _ _ _ => false }

/-- The environment `okEnv` with commands that print nothing. -/
def silentEnv : Env :=
  { okEnv with exec := fun _ w => (.ok "", w.fs) }

/-- The environment `okEnv` in which the system refuses to remove the fragment
file `k/syz.config`. -/
def stuckEnv : Env :=
  { okEnv with
    fault := fun op _ =>
      if op = .remove "k/syz.config" then
        some { msg := "remove k/syz.config: operation not permitted", notExist := false }
      else none }

/-- The environment `okEnv` in which the system refuses to remove the old
configuration `k/.config`. -/
def deniedEnv : Env :=
  { okEnv with
    fault := fun op _ =>
      if op = .remove "k/.config" then
        some { msg := "remove k/.config: permission denied", notExist := false }
      else none }

/-- A world whose build directory `k` already holds a configuration. -/
def w9 : World :=
  { fs := fun p => if p = "k/.config" then some (.file "CONFIG_OLD=y\n" 0o644) else none
    trace := [] }

/-- The environment `okEnv` in which the system refuses to remove the scratch
directory. -/
def leakEnv : Env :=
  { okEnv with
    fault := fun op _ =>
      if op = .removeAll "/tmp/syz-build1" then
        some { msg := "unlinkat /tmp/syz-build1: permission denied", notExist := false }
      else none }

/-- The environment `okEnv` in which the copy of the key to `out/key` is
refused. -/
def keyFailEnv : Env :=
  { okEnv with
    fault := fun op _ =>
      if op = .copyFile "/tmp/syz-build1/key" "out/key" then
        some { msg := "open out/key.tmp: permission denied", notExist := false }
      else none }

/-- The environment `okEnv` in which `make kvmconfig` fails. -/
def kvmFailEnv : Env :=
  { okEnv with
    exec := fun c w =>
      if c.args = ["kvmconfig"] then
        (.error { msg := "make kvmconfig: exit status 2", notExist := false }, w.fs)
      else (.ok "", w.fs) }

/-! ## Vocabulary of the statements -/

/-- The effects issued between the world `w` and the later world `w1`. -/
def newEvents (w w1 : World) : List Event := w1.trace.drop w.trace.length

/-- The external commands among some events, in order, each with the error
it returned. -/
def commandsOf : List Event → List (Cmd × Option Error)
  | [] => []
  | { op := .run c, err := err } :: evs => (c, err) :: commandsOf evs
  | _ :: evs => commandsOf evs

/-- The command `make olddefconfig` of `build`. -/
def cmdOlddefconfig (dir : String) : Cmd :=
  { timeout := 10 * Minute, dir := dir, bin := "make", args := ["olddefconfig"] }

/-- The compile command of `build`. -/
def cmdBzImage (env : Env) (dir compiler : String) : Cmd :=
  { timeout := 3 * Hour, dir := dir, bin := "make",
    args := ["bzImage", "-j", strconvItoa env.numCPU, "CC=" ++ compiler] }

/-- The command `make defconfig` of `BuildWithPartConfig`. -/
def cmdDefconfig (dir : String) : Cmd :=
  { timeout := 10 * Minute, dir := dir, bin := "make", args := ["defconfig"] }

/-- The command `make kvmconfig` of `BuildWithPartConfig`. -/
def cmdKvmconfig (dir : String) : Cmd :=
  { timeout := 10 * Minute, dir := dir, bin := "make", args := ["kvmconfig"] }

/-- The merge command of `BuildWithPartConfig`. -/
def cmdMerge (dir : String) : Cmd :=
  { timeout := 10 * Minute, dir := dir, bin := "scripts/kconfig/merge_config.sh",
    args := ["-n", ".config", filepathJoin dir "syz.config"] }

/-- The documented step order of the build pipeline (spec, section 4.3). -/
def buildSteps (env : Env) (dir compiler : String) : List Cmd :=
  [cmdOlddefconfig dir, cmdBzImage env dir compiler]

/-- The documented step order of the pipeline in partial-config mode (spec,
section 4.3). -/
def partConfigSteps (env : Env) (dir compiler : String) : List Cmd :=
  [cmdDefconfig dir, cmdKvmconfig dir, cmdMerge dir] ++ buildSteps env dir compiler

/-- The abort invariant: the commands that ran are a prefix of the step
order, and a command that failed is the last one that ran, its error being the
result of the operation. -/
def AbortInvariant (steps : List Cmd) (ran : List (Cmd × Option Error))
    (ret : Option Error) : Prop :=
  ran.map Prod.fst <+: steps ∧
  ∀ (i : Nat) (h : i < ran.length),
    (ran.get ⟨i, h⟩).2 ≠ none → i + 1 = ran.length ∧ ret = (ran.get ⟨i, h⟩).2

instance (steps : List Cmd) (ran : List (Cmd × Option Error)) (ret : Option Error) :
    Decidable (AbortInvariant steps ran ret) := by
  unfold AbortInvariant
  exact inferInstance

/-- The event of a command that succeeded. -/
def okRun (c : Cmd) : Event := { op := .run c, err := none }

/-- A run of a sequence of commands from the world `w` with result `r`: every
step succeeded and there is no error, or the steps before step `k` succeeded,
step `k` failed, nothing ran after it, and its error is the result. -/
def PipelineRun (env : Env) (steps : List Cmd) (w : World) (r : Option Error × World) :
    Prop :=
  (r.1 = none ∧ r.2.trace = w.trace ++ steps.map okRun) ∨
  ∃ (k : Nat) (c : Cmd) (e : Error) (w1 : World),
    steps.get? k = some c ∧ (env.exec c w1).1 = .error e ∧ r.1 = some e ∧
    r.2.trace = w.trace ++ ((steps.take k).map okRun ++ [{ op := .run c, err := some e }])

/-- The events of a run of a sequence of commands with result `ret`: every
step succeeded and there is no error, or the steps before step `k` succeeded,
step `k` failed, nothing ran after it, and its error is the result. -/
def PipelineEvents (env : Env) (steps : List Cmd) (evs : List Event) (ret : Option Error) :
    Prop :=
  (ret = none ∧ evs = steps.map okRun) ∨
  ∃ (k : Nat) (c : Cmd) (e : Error) (w1 : World),
    steps.get? k = some c ∧ (env.exec c w1).1 = .error e ∧ ret = some e ∧
    evs = (steps.take k).map okRun ++ [{ op := .run c, err := some e }]

/-- The write of the bundled script into the scratch directory `d`. -/
def opScript (env : Env) (d : String) : Op :=
  .writeExecFile (filepathJoin d "create.sh") env.createImageScript

/-- The run of the packaging script in the scratch directory `d`. -/
def opPackage (kernelDir userspaceDir d : String) : Op :=
  .run { timeout := Hour, dir := d, bin := filepathJoin d "create.sh",
         args := [userspaceDir, filepathJoin kernelDir "arch/x86/boot/bzImage"] }

/-- The copy of the disk image from the scratch directory `d`. -/
def opCopyImage (d image : String) : Op := .copyFile (filepathJoin d "disk.raw") image

/-- The copy of the key from the scratch directory `d`. -/
def opCopyKey (d sshkey : String) : Op := .copyFile (filepathJoin d "key") sshkey

/-- The shapes of a run of the body of `CreateImage` in the scratch directory
`d`: its events `evs`, its result `ret` and the file system `fs` it leaves.
The steps run in order and the first failure ends the run; when every step
succeeds the key at the destination has mode 0600. -/
def BodyShape (env : Env) (kernelDir userspaceDir image sshkey d : String)
    (evs : List Event) (ret : Option Error) (fs : FS) : Prop :=
  (∃ e, ret = some (fmtErrorf "failed to write script file: " e) ∧
    evs = [⟨opScript env d, some e⟩]) ∨
  (∃ e, ret = some (fmtErrorf "image build failed: " e) ∧
    evs = [⟨opScript env d, none⟩, ⟨opPackage kernelDir userspaceDir d, some e⟩]) ∨
  (∃ e, ret = some e ∧
    evs = [⟨opScript env d, none⟩, ⟨opPackage kernelDir userspaceDir d, none⟩,
      ⟨opCopyImage d image, some e⟩]) ∨
  (∃ e, ret = some e ∧
    evs = [⟨opScript env d, none⟩, ⟨opPackage kernelDir userspaceDir d, none⟩,
      ⟨opCopyImage d image, none⟩, ⟨opCopyKey d sshkey, some e⟩]) ∨
  (∃ e, ret = some e ∧
    evs = [⟨opScript env d, none⟩, ⟨opPackage kernelDir userspaceDir d, none⟩,
      ⟨opCopyImage d image, none⟩, ⟨opCopyKey d sshkey, none⟩,
      ⟨.chmod sshkey 0o600, some e⟩]) ∨
  (ret = none ∧
    evs = [⟨opScript env d, none⟩, ⟨opPackage kernelDir userspaceDir d, none⟩,
      ⟨opCopyImage d image, none⟩, ⟨opCopyKey d sshkey, none⟩,
      ⟨.chmod sshkey 0o600, none⟩] ∧
    ∃ data, fs sshkey = some (.file data 0o600))

/-! ## Theorems -/

/-! ## Lemmas on `strings.Split` at the newline separator -/

theorem stringsIndex_newline_none (s : List Char) (h : stringsIndex ['\n'] s = none) :
    s.takeWhile (fun c => c != '\n') = s := by
  induction s with
  | nil => rfl
  | cons c cs ih =>
    by_cases hc : c = '\n'
    · subst hc
      simp [stringsIndex, List.isPrefixOf] at h
    · have hc2 : ('\n' == c) = false := by
        simp only [beq_eq_false_iff_ne, ne_eq]
        exact fun h2 => hc h2.symm
      simp only [stringsIndex, List.isPrefixOf, hc2, Bool.false_and, Bool.false_eq_true,
        if_false, Option.map_eq_none'] at h
      have hc3 : (c != '\n') = true := by simp [hc]
      simp [List.takeWhile, hc3, ih h]

theorem stringsIndex_newline_some (s : List Char) (m : Nat)
    (h : stringsIndex ['\n'] s = some m) :
    s.take m = s.takeWhile (fun c => c != '\n') ∧ s ≠ [] := by
  induction s generalizing m with
  | nil => simp [stringsIndex, List.isPrefixOf] at h
  | cons c cs ih =>
    refine ⟨?_, by simp⟩
    by_cases hc : c = '\n'
    · subst hc
      simp [stringsIndex, List.isPrefixOf] at h
      subst h
      simp [List.takeWhile]
    · have hc2 : ('\n' == c) = false := by
        simp only [beq_eq_false_iff_ne, ne_eq]
        exact fun h2 => hc h2.symm
      simp only [stringsIndex, List.isPrefixOf, hc2, Bool.false_and, Bool.false_eq_true,
        if_false, Option.map_eq_some'] at h
      obtain ⟨k, hk, rfl⟩ := h
      have hc3 : (c != '\n') = true := by simp [hc]
      simp [List.takeWhile, hc3, (ih k hk).1]

/-- The first piece of a split at newlines is the text before the first
newline. -/
theorem index0_stringsSplit_newline (s : String) (hne : s ≠ "") :
    index0 (stringsSplit s "\n") = some (String.mk (s.data.takeWhile (fun c => c != '\n'))) := by
  have hlen : s.data ≠ [] := by
    intro h
    apply hne
    cases s
    simp_all
  have hsep : ("\n" : String).data = ['\n'] := rfl
  unfold stringsSplit
  rw [hsep]
  simp only [List.cons_ne_nil, if_false]
  obtain ⟨n, hn⟩ : ∃ n, s.data.length = n + 1 := by
    cases hd : s.data with
    | nil => exact absurd hd hlen
    | cons c cs => exact ⟨cs.length, rfl⟩
  rw [hn]
  unfold genSplitLoop
  cases hi : stringsIndex ['\n'] s.data with
  | none => simp [index0, stringsIndex_newline_none _ hi]
  | some m => simp [index0, (stringsIndex_newline_some _ m hi).1]

theorem takeWhile_longest (p : Char → Bool) (l s : List Char) (hl : l <+: s)
    (hp : ∀ c ∈ l, p c = true) : l.length ≤ (s.takeWhile p).length := by
  obtain ⟨t, rfl⟩ := hl
  induction l with
  | nil => simp
  | cons c cs ih =>
    have hc : p c = true := hp c (by simp)
    simp only [List.cons_append, List.takeWhile, hc, List.length_cons]
    exact Nat.succ_le_succ (ih (fun d hd => hp d (by simp [hd])))

/-- With a non-empty output of a successful run, CompilerIdentity returns the
text before the first newline and no error. -/
theorem CompilerIdentity_of_output (env : Env) (compiler : String) (w : World)
    (output : String)
    (hrun : (env.exec { timeout := Minute, dir := "", bin := compiler, args := ["--version"] }
      w).1 = .ok output)
    (hne : output ≠ "") :
    (CompilerIdentity env compiler w).1 =
      some (String.mk (output.data.takeWhile (fun c => c != '\n')), none) := by
  have hlen : output.length ≠ 0 := by
    intro h
    apply hne
    cases output with
    | mk d =>
      have hd : d = [] := List.length_eq_zero.mp h
      subst hd
      rfl
  simp only [CompilerIdentity, osutilRunCmd, hrun, hlen, if_false,
    index0_stringsSplit_newline output hne, Option.map_some']

/-- Claim C1: for every non-empty output of a successful run of the compiler with
the version flag, CompilerIdentity returns, without an error and without a
panic, the first line of that output: the prefix of the output that stops
before the first newline, which contains no newline and is the longest prefix
of the output that contains none.  For the output with the two lines
gcc 10.2 and copyright 2021 the result is gcc 10.2. -/
theorem C1_compiler_identity_first_line (env : Env) (compiler : String) (w : World)
    (output : String)
    (hrun : (env.exec { timeout := Minute, dir := "", bin := compiler, args := ["--version"] }
      w).1 = .ok output)
    (hne : output ≠ "") :
    ∃ line : String,
      (CompilerIdentity env compiler w).1 = some (line, none) ∧
      line.data = output.data.takeWhile (fun c => c != '\n') ∧
      line.data <+: output.data ∧
      '\n' ∉ line.data ∧
      (∀ l : List Char, l <+: output.data → '\n' ∉ l → l.length ≤ line.data.length) ∧
      (output = "gcc 10.2\ncopyright 2021\n" → line = "gcc 10.2") := by
  refine ⟨String.mk (output.data.takeWhile (fun c => c != '\n')), ?_, rfl, ?_, ?_, ?_, ?_⟩
  · exact CompilerIdentity_of_output env compiler w output hrun hne
  · exact List.takeWhile_prefix _
  · intro hmem
    have := List.mem_takeWhile_imp hmem
    simp at this
  · intro l hl hnl
    apply takeWhile_longest _ l output.data hl
    intro c hc
    simp only [bne_iff_ne, ne_eq]
    intro h
    exact hnl (h ▸ hc)
  · intro h
    subst h
    decide

/-- Claim C1, witness: a compiler that prints a two-line banner is identified by
the first line. -/
theorem C1_compiler_identity_first_line_witness :
    (CompilerIdentity okEnv "gcc" w0).1 = some ("gcc 10.2", none) := by
  obtain ⟨line, h1, _, _, _, _, h6⟩ :=
    C1_compiler_identity_first_line okEnv "gcc" w0 "gcc 10.2\ncopyright 2021\n" rfl (by decide)
  rw [h1, h6 rfl]

/-- Claim C2: CompilerIdentity returns an error exactly when the command fails or
succeeds with empty output.  When the command fails, the result is the empty
identity and the error of the command itself; when the command succeeds with
zero bytes of output, the result is the empty identity and the error
no output from compiler --version. -/
theorem C2_compiler_identity_errors (env : Env) (compiler : String) (w : World) :
    (∀ e, (env.exec { timeout := Minute, dir := "", bin := compiler, args := ["--version"] }
        w).1 = .error e →
      (CompilerIdentity env compiler w).1 = some ("", some e)) ∧
    ((env.exec { timeout := Minute, dir := "", bin := compiler, args := ["--version"] }
        w).1 = .ok "" →
      (CompilerIdentity env compiler w).1 =
        some ("", some (fmtErrorf0 "no output from compiler --version"))) ∧
    ((∃ id e, (CompilerIdentity env compiler w).1 = some (id, some e)) ↔
      ((∃ e, (env.exec { timeout := Minute, dir := "", bin := compiler, args := ["--version"] }
          w).1 = .error e) ∨
        (env.exec { timeout := Minute, dir := "", bin := compiler, args := ["--version"] }
          w).1 = .ok "")) := by
  cases hr : (env.exec { timeout := Minute, dir := "", bin := compiler, args := ["--version"] }
      w).1 with
  | error e0 =>
    have hc : (CompilerIdentity env compiler w).1 = some ("", some e0) := by
      simp only [CompilerIdentity, osutilRunCmd, hr]
    refine ⟨?_, ?_, ?_⟩
    · intro e he
      cases he
      exact hc
    · intro h
      cases h
    · rw [hc]
      exact ⟨fun _ => Or.inl ⟨e0, rfl⟩, fun _ => ⟨"", e0, rfl⟩⟩
  | ok output =>
    by_cases hlen : output.length = 0
    · have ho : output = "" := by
        cases output with
        | mk d =>
          have hd : d = [] := List.length_eq_zero.mp hlen
          subst hd
          rfl
      subst ho
      have hc : (CompilerIdentity env compiler w).1 =
          some ("", some (fmtErrorf0 "no output from compiler --version")) := by
        simp only [CompilerIdentity, osutilRunCmd, hr]
        rfl
      refine ⟨?_, fun _ => hc, ?_⟩
      · intro e he
        cases he
      · rw [hc]
        exact ⟨fun _ => Or.inr rfl, fun _ => ⟨"", _, rfl⟩⟩
    · have hne : output ≠ "" := by
        intro h
        apply hlen
        rw [h]
        rfl
      have h1 := CompilerIdentity_of_output env compiler w output hr hne
      refine ⟨?_, ?_, ?_⟩
      · intro e he
        cases he
      · intro h
        cases h
        exact absurd rfl hne
      · rw [h1]
        constructor
        · rintro ⟨id, e, h⟩
          cases h
        · rintro (⟨e, he⟩ | he)
          · cases he
          · cases he
            exact absurd rfl hne

/-- Claim C2, witness: a compiler that prints nothing gives the no-output error. -/
theorem C2_compiler_identity_errors_witness :
    (CompilerIdentity silentEnv "gcc" w0).1 =
      some ("", some { msg := "no output from compiler --version", notExist := false }) :=
  (C2_compiler_identity_errors silentEnv "gcc" w0).2.1 rfl

/-! ## One effect, one event -/

theorem newEvents_of_trace (w w1 : World) (evs : List Event)
    (h : w1.trace = w.trace ++ evs) : newEvents w w1 = evs := by
  simp [newEvents, h]

theorem osutilRunCmd_trace (env : Env) (t : Nat) (d b : String) (a : List String)
    (w : World) :
    (osutilRunCmd env t d b a w).2.trace =
      w.trace ++ [⟨.run ⟨t, d, b, a⟩, errOf (osutilRunCmd env t d b a w).1⟩] :=
  rfl

theorem osutilCopyFile_trace (env : Env) (src dst : String) (w : World) :
    (osutilCopyFile env src dst w).2.trace =
      w.trace ++ [⟨.copyFile src dst, (osutilCopyFile env src dst w).1⟩] := by
  unfold osutilCopyFile
  split
  · rfl
  · split <;> rfl

theorem osutilWriteFile_trace (env : Env) (path data : String) (w : World) :
    (osutilWriteFile env path data w).2.trace =
      w.trace ++ [⟨.writeFile path data, (osutilWriteFile env path data w).1⟩] := by
  unfold osutilWriteFile
  split <;> rfl

theorem osutilWriteExecFile_trace (env : Env) (path data : String) (w : World) :
    (osutilWriteExecFile env path data w).2.trace =
      w.trace ++ [⟨.writeExecFile path data, (osutilWriteExecFile env path data w).1⟩] := by
  unfold osutilWriteExecFile
  split <;> rfl

theorem osRemove_trace (env : Env) (path : String) (w : World) :
    (osRemove env path w).2.trace =
      w.trace ++ [⟨.remove path, (osRemove env path w).1⟩] := by
  unfold osRemove
  split
  · rfl
  · split <;> rfl

theorem osRemoveAll_trace (env : Env) (path : String) (w : World) :
    (osRemoveAll env path w).2.trace =
      w.trace ++ [⟨.removeAll path, (osRemoveAll env path w).1⟩] := by
  unfold osRemoveAll
  split <;> rfl

theorem ioutilTempDir_trace (env : Env) (dir pattern : String) (w : World) :
    (ioutilTempDir env dir pattern w).2.trace =
      w.trace ++ [⟨.tempDir dir pattern, errOf (ioutilTempDir env dir pattern w).1⟩] := by
  unfold ioutilTempDir
  split
  · rfl
  · split <;> rfl

theorem osChmod_trace (env : Env) (path : String) (mode : Nat) (w : World) :
    (osChmod env path mode w).2.trace =
      w.trace ++ [⟨.chmod path mode, (osChmod env path mode w).1⟩] := by
  unfold osChmod
  split
  · rfl
  · split <;> rfl

theorem pipelineRun_nil (env : Env) (w : World) : PipelineRun env [] w (none, w) :=
  Or.inl ⟨rfl, by simp⟩

theorem pipelineRun_cons (env : Env) (t : Nat) (d b : String) (a : List String)
    (steps : List Cmd) (rest : World → Option Error × World) (w : World)
    (h : ∀ w1, PipelineRun env steps w1 (rest w1)) :
    PipelineRun env (⟨t, d, b, a⟩ :: steps) w
      (match osutilRunCmd env t d b a w with
        | (.error err, w1) => (some err, w1)
        | (.ok _, w1) => rest w1) := by
  have t1 := osutilRunCmd_trace env t d b a w
  have hx : (osutilRunCmd env t d b a w).1 = (env.exec ⟨t, d, b, a⟩ w).1 := rfl
  generalize osutilRunCmd env t d b a w = x1 at t1 hx ⊢
  obtain ⟨r1, w1⟩ := x1
  cases r1 with
  | error e =>
    refine Or.inr ⟨0, ⟨t, d, b, a⟩, e, w, rfl, hx.symm, rfl, ?_⟩
    simpa [errOf] using t1
  | ok o =>
    dsimp only at t1 ⊢
    rcases h w1 with ⟨h1, h2⟩ | ⟨k, c, e, w2, hk, he, h1, h2⟩
    · refine Or.inl ⟨h1, ?_⟩
      rw [h2, t1]
      simp [errOf, okRun]
    · refine Or.inr ⟨k + 1, c, e, w2, by simpa using hk, he, h1, ?_⟩
      rw [h2, t1]
      simp [errOf, okRun]

theorem build_pipeline (env : Env) (dir compiler : String) (w : World) :
    PipelineRun env (buildSteps env dir compiler) w (build env dir compiler w) := by
  unfold build buildSteps
  exact pipelineRun_cons env _ _ _ _ _ _ w (fun w1 =>
    pipelineRun_cons env _ _ _ _ [] (fun w2 => (none, w2)) w1 (fun w2 => pipelineRun_nil env w2))

theorem body_pipeline (env : Env) (dir compiler : String) (w : World) :
    PipelineRun env (partConfigSteps env dir compiler) w
      (BuildWithPartConfig.body env dir compiler (filepathJoin dir "syz.config")
        (10 * Minute) w) := by
  unfold BuildWithPartConfig.body partConfigSteps
  exact pipelineRun_cons env _ _ _ _ _ _ w (fun w1 =>
    pipelineRun_cons env _ _ _ _ _ _ w1 (fun w2 =>
      pipelineRun_cons env _ _ _ _ _ _ w2 (fun w3 => build_pipeline env dir compiler w3)))

theorem pipelineRun_events (env : Env) (steps : List Cmd) (w : World)
    (r : Option Error × World) (h : PipelineRun env steps w r) :
    ∃ evs, r.2.trace = w.trace ++ evs ∧ PipelineEvents env steps evs r.1 := by
  rcases h with ⟨h1, h2⟩ | ⟨k, c, e, w1, hk, he, h1, h2⟩
  · exact ⟨_, h2, Or.inl ⟨h1, rfl⟩⟩
  · exact ⟨_, h2, Or.inr ⟨k, c, e, w1, hk, he, h1, rfl⟩⟩

/-! ## What a successful primitive leaves behind -/

theorem osutilCopyFile_ok (env : Env) (src dst : String) (w : World)
    (h : (osutilCopyFile env src dst w).1 = none) :
    ∃ data mode, w.fs src = some (.file data mode) ∧
      osutilCopyFile env src dst w =
        (none, ⟨w.fs.put dst (.file data mode), w.trace ++ [⟨.copyFile src dst, none⟩]⟩) := by
  unfold osutilCopyFile at h ⊢
  split at h
  · cases h
  · split at h
    · rename_i data mode hs
      exact ⟨data, mode, hs, rfl⟩
    · cases h
    · cases h

theorem osutilWriteFile_ok (env : Env) (path data : String) (w : World)
    (h : (osutilWriteFile env path data w).1 = none) :
    osutilWriteFile env path data w =
      (none, ⟨w.fs.put path (.file data env.filePerm),
        w.trace ++ [⟨.writeFile path data, none⟩]⟩) := by
  unfold osutilWriteFile at h ⊢
  split at h
  · cases h
  · rfl

theorem osRemove_ok_fs (env : Env) (path : String) (w : World)
    (h : (osRemove env path w).1 = none) : (osRemove env path w).2.fs path = none := by
  unfold osRemove at h ⊢
  split at h
  · cases h
  · split at h
    · cases h
    · simp [World.after, FS.del]

theorem osRemoveAll_ok_fs (env : Env) (path : String) (w : World)
    (h : (osRemoveAll env path w).1 = none) (p : String) (hp : isUnder path p = true) :
    (osRemoveAll env path w).2.fs p = none := by
  unfold osRemoveAll at h ⊢
  split at h
  · cases h
  · simp [World.after, FS.delTree, hp]

/-- The file system outside the directory is left alone by `os.RemoveAll`. -/
theorem osRemoveAll_fs_outside (env : Env) (path : String) (w : World) (p : String)
    (hp : isUnder path p = false) : (osRemoveAll env path w).2.fs p = w.fs p := by
  unfold osRemoveAll
  split
  · simp [World.after, hp]
  · simp [World.after, FS.delTree, hp]

/-! ## The shapes of `Build` and `BuildWithPartConfig` -/

/-- The shapes of a run of `Build`: the copy fails and nothing else happens,
or the copy succeeds and the pipeline runs in the world the copy left. -/
theorem Build_shape (env : Env) (dir compiler config : String) (w : World) :
    (∃ e, (osutilCopyFile env config (filepathJoin dir ".config") w).1 = some e ∧
      (Build env dir compiler config w).1 =
        some (fmtErrorf "failed to write config file: " e) ∧
      (Build env dir compiler config w).2.trace =
        w.trace ++ [⟨.copyFile config (filepathJoin dir ".config"), some e⟩]) ∨
    (∃ evs data mode, w.fs config = some (.file data mode) ∧
      Build env dir compiler config w =
        build env dir compiler ⟨w.fs.put (filepathJoin dir ".config") (.file data mode),
          w.trace ++ [⟨.copyFile config (filepathJoin dir ".config"), none⟩]⟩ ∧
      PipelineEvents env (buildSteps env dir compiler) evs (Build env dir compiler config w).1 ∧
      (Build env dir compiler config w).2.trace =
        w.trace ++ (⟨.copyFile config (filepathJoin dir ".config"), none⟩ :: evs)) := by
  cases hc : (osutilCopyFile env config (filepathJoin dir ".config") w).1 with
  | some e =>
    left
    refine ⟨e, rfl, ?_⟩
    have t1 := osutilCopyFile_trace env config (filepathJoin dir ".config") w
    unfold Build
    generalize osutilCopyFile env config (filepathJoin dir ".config") w = x at hc t1 ⊢
    obtain ⟨r1, w1⟩ := x
    cases hc
    exact ⟨rfl, t1⟩
  | none =>
    right
    obtain ⟨data, mode, hs, heq⟩ := osutilCopyFile_ok env config _ w hc
    have hB : Build env dir compiler config w =
        build env dir compiler ⟨w.fs.put (filepathJoin dir ".config") (.file data mode),
          w.trace ++ [⟨.copyFile config (filepathJoin dir ".config"), none⟩]⟩ := by
      unfold Build
      rw [heq]
    obtain ⟨evs, ht, hp⟩ := pipelineRun_events env _ _ _ (build_pipeline env dir compiler
      ⟨w.fs.put (filepathJoin dir ".config") (.file data mode),
        w.trace ++ [⟨.copyFile config (filepathJoin dir ".config"), none⟩]⟩)
    refine ⟨evs, data, mode, hs, hB, ?_, ?_⟩
    · rw [hB]
      exact hp
    · rw [hB, ht]
      simp

/-- The shapes of a run of `BuildWithPartConfig`: after the first removal,
whatever its result, the fragment is written; if that fails nothing else
happens; otherwise the pipeline runs and the fragment is removed last. -/
theorem BuildWithPartConfig_shape (env : Env) (dir compiler config : String) (w : World) :
      (∃ e, (osutilWriteFile env (filepathJoin dir "syz.config") config
            (osRemove env (filepathJoin dir ".config") w).2).1 = some e ∧
        (BuildWithPartConfig env dir compiler config w).1 =
          some (fmtErrorf "failed to write config file: " e) ∧
        (BuildWithPartConfig env dir compiler config w).2.trace =
          w.trace ++ [⟨.remove (filepathJoin dir ".config"), (osRemove env (filepathJoin dir ".config") w).1⟩,
            ⟨.writeFile (filepathJoin dir "syz.config") config, some e⟩]) ∨
      (∃ evs r5,
        PipelineEvents env (partConfigSteps env dir compiler) evs
          (BuildWithPartConfig env dir compiler config w).1 ∧
        (BuildWithPartConfig env dir compiler config w).2.trace =
          w.trace ++ ([⟨.remove (filepathJoin dir ".config"), (osRemove env (filepathJoin dir ".config") w).1⟩,
            ⟨.writeFile (filepathJoin dir "syz.config") config, none⟩] ++ evs ++
            [⟨.remove (filepathJoin dir "syz.config"), r5⟩]) ∧
        (r5 = none →
          (BuildWithPartConfig env dir compiler config w).2.fs
            (filepathJoin dir "syz.config") = none) ∧
        (BuildWithPartConfig env dir compiler config w).1 =
          (BuildWithPartConfig.body env dir compiler (filepathJoin dir "syz.config")
            (10 * Minute)
            (osutilWriteFile env (filepathJoin dir "syz.config") config
              (osRemove env (filepathJoin dir ".config") w).2).2).1) := by
  have t0 := osRemove_trace env (filepathJoin dir ".config") w
  generalize hw1 : (osRemove env (filepathJoin dir ".config") w).2 = w1 at t0 ⊢
  cases hc : (osutilWriteFile env (filepathJoin dir "syz.config") config w1).1 with
  | some e =>
    left
    refine ⟨e, rfl, ?_⟩
    have t1 := osutilWriteFile_trace env (filepathJoin dir "syz.config") config w1
    unfold BuildWithPartConfig
    simp only [hw1]
    generalize osutilWriteFile env (filepathJoin dir "syz.config") config w1 = x at hc t1 ⊢
    obtain ⟨r1, w2⟩ := x
    cases hc
    refine ⟨rfl, ?_⟩
    simp only at t1 ⊢
    rw [t1, t0]
    simp
  | none =>
    right
    have heq := osutilWriteFile_ok env _ _ w1 hc
    rw [heq]
    generalize hw2 : (⟨w1.fs.put (filepathJoin dir "syz.config") (.file config env.filePerm),
      w1.trace ++ [⟨.writeFile (filepathJoin dir "syz.config") config, none⟩]⟩ : World) = w2
      at heq
    have hw2t : w2.trace =
        w1.trace ++ [⟨.writeFile (filepathJoin dir "syz.config") config, none⟩] := by
      rw [← hw2]
    obtain ⟨evs, ht, hp⟩ := pipelineRun_events env _ _ _ (body_pipeline env dir compiler w2)
    generalize hrb : BuildWithPartConfig.body env dir compiler (filepathJoin dir "syz.config")
      (10 * Minute) w2 = rb at ht hp
    have hB : BuildWithPartConfig env dir compiler config w =
        (rb.1, (osRemove env (filepathJoin dir "syz.config") rb.2).2) := by
      unfold BuildWithPartConfig
      simp only [hw1, heq, hrb]
    refine ⟨evs, (osRemove env (filepathJoin dir "syz.config") rb.2).1, ?_, ?_, ?_, ?_⟩
    · rw [hB]
      exact hp
    · rw [hB]
      simp only
      rw [osRemove_trace, ht, hw2t, t0]
      simp
    · intro h5
      rw [hB]
      exact osRemove_ok_fs env _ _ h5
    · rw [hB]

/-! ## Commands of a trace -/

theorem commandsOf_append (a b : List Event) :
    commandsOf (a ++ b) = commandsOf a ++ commandsOf b := by
  induction a with
  | nil => rfl
  | cons ev evs ih =>
    obtain ⟨op, err⟩ := ev
    cases op <;> simp [commandsOf, ih]

theorem commandsOf_okRun (l : List Cmd) :
    commandsOf (l.map okRun) = l.map (fun c => (c, none)) := by
  induction l with
  | nil => rfl
  | cons c cs ih => simp [commandsOf, okRun, ih]

theorem abortInvariant_nil (steps : List Cmd) (ret : Option Error) :
    AbortInvariant steps [] ret :=
  ⟨by simp, fun i h => absurd h (by simp)⟩

theorem abortInvariant_ok (steps : List Cmd) (ret : Option Error) :
    AbortInvariant steps (steps.map (fun c => (c, (none : Option Error)))) ret := by
  refine ⟨by simp [Function.comp_def], ?_⟩
  intro i h he
  simp at he

theorem abortInvariant_fail (steps : List Cmd) (k : Nat) (c : Cmd) (e : Error)
    (hk : steps.get? k = some c) :
    AbortInvariant steps
      ((steps.take k).map (fun c => (c, (none : Option Error))) ++ [(c, some e)]) (some e) := by
  have hlt : k < steps.length := by
    by_contra hge
    rw [List.get?_eq_none.mpr (Nat.le_of_not_lt hge)] at hk
    cases hk
  constructor
  · have h1 : steps.take (k + 1) = steps.take k ++ [c] := by
      rw [List.take_succ]
      simp only [List.get?_eq_getElem?] at hk
      rw [hk]
      rfl
    simp only [List.map_append, List.map_map, Function.comp_def, List.map_id', List.map_cons,
      List.map_nil]
    rw [← h1]
    exact List.take_prefix _ _
  · intro i h he
    have hlen : ((steps.take k).map (fun c => (c, (none : Option Error)))).length = k := by
      simp [Nat.min_eq_left (Nat.le_of_lt hlt)]
    rw [List.get_eq_getElem, List.getElem_append] at he ⊢
    split at he
    · simp at he
    · rename_i hge
      simp only [List.length_append, List.length_singleton, hlen] at h ⊢
      simp only [hlen] at hge
      have hi : i = k := by omega
      subst hi
      simp

theorem abortInvariant_of_pipeline (env : Env) (steps : List Cmd) (evs : List Event)
    (ret : Option Error) (h : PipelineEvents env steps evs ret) :
    AbortInvariant steps (commandsOf evs) ret := by
  rcases h with ⟨_, h2⟩ | ⟨k, c, e, w1, hk, _, h1, h2⟩
  · rw [h2, commandsOf_okRun]
    exact abortInvariant_ok steps ret
  · rw [h2, h1, commandsOf_append, commandsOf_okRun]
    exact abortInvariant_fail steps k c e hk

theorem mem_commandsOf (c : Cmd) (err : Option Error) (l : List Event)
    (h : (⟨.run c, err⟩ : Event) ∈ l) : (c, err) ∈ commandsOf l := by
  obtain ⟨a, b, rfl⟩ := List.append_of_mem h
  rw [commandsOf_append]
  simp [commandsOf]

/-- A pipeline in which every command that ran succeeded ran every step and
returns no error. -/
theorem pipelineEvents_of_ran_ok (env : Env) (steps : List Cmd) (evs : List Event)
    (ret : Option Error) (h : PipelineEvents env steps evs ret)
    (hran : ∀ x ∈ commandsOf evs, x.2 = none) : ret = none ∧ evs = steps.map okRun := by
  rcases h with h | ⟨k, c, e, w1, _, _, _, h2⟩
  · exact h
  · have hm : (c, some e) ∈ commandsOf evs := by
      apply mem_commandsOf
      rw [h2]
      simp
    have := hran _ hm
    simp at this

/-- A pipeline returns no error exactly when every command that ran
succeeded. -/
theorem pipelineEvents_ret_iff (env : Env) (steps : List Cmd) (evs : List Event)
    (ret : Option Error) (h : PipelineEvents env steps evs ret) :
    ret = none ↔ ∀ x ∈ commandsOf evs, x.2 = none := by
  constructor
  · intro hret
    rcases h with ⟨_, h2⟩ | ⟨k, c, e, w1, _, _, h1, _⟩
    · rw [h2, commandsOf_okRun]
      intro x hx
      obtain ⟨c, _, rfl⟩ := List.mem_map.mp hx
      rfl
    · rw [hret] at h1
      cases h1
  · intro hran
    exact (pipelineEvents_of_ran_ok env steps evs ret h hran).1

/-! ## The build pipeline: claims C3, C4, C10 -/

/-- Claim C3: the abort invariant of the build pipeline.  In every run of Build and
of BuildWithPartConfig, whatever external commands succeed or fail, the
commands executed are a prefix of the documented step order, a command that
failed is the last one executed (no later step is invoked), and the operation
returns the error of that failing command. -/
theorem C3_abort_invariant (env : Env) (dir compiler config : String) (w : World) :
    AbortInvariant (buildSteps env dir compiler)
      (commandsOf (newEvents w (Build env dir compiler config w).2))
      (Build env dir compiler config w).1 ∧
    AbortInvariant (partConfigSteps env dir compiler)
      (commandsOf (newEvents w (BuildWithPartConfig env dir compiler config w).2))
      (BuildWithPartConfig env dir compiler config w).1 := by
  constructor
  · rcases Build_shape env dir compiler config w with
      ⟨e, _, _, ht⟩ | ⟨evs, data, mode, _, _, hp, ht⟩
    · rw [newEvents_of_trace w _ _ ht]
      exact abortInvariant_nil _ _
    · rw [newEvents_of_trace w _ _ ht]
      have hc : commandsOf (⟨.copyFile config (filepathJoin dir ".config"), none⟩ :: evs) =
          commandsOf evs := rfl
      rw [hc]
      exact abortInvariant_of_pipeline env _ _ _ hp
  · have h := BuildWithPartConfig_shape env dir compiler config w
    rcases h with ⟨e, _, _, ht⟩ | ⟨evs, r5, hp, ht, _, _⟩
    · rw [newEvents_of_trace w _ _ ht]
      exact abortInvariant_nil _ _
    · rw [newEvents_of_trace w _ _ ht]
      have hc : commandsOf ([⟨.remove (filepathJoin dir ".config"),
            (osRemove env (filepathJoin dir ".config") w).1⟩,
          ⟨.writeFile (filepathJoin dir "syz.config") config, none⟩] ++ evs ++
          [⟨.remove (filepathJoin dir "syz.config"), r5⟩]) = commandsOf evs := by
        simp [commandsOf_append, commandsOf]
      rw [hc]
      exact abortInvariant_of_pipeline env _ _ _ hp

/-- Claim C3, witness: when make kvmconfig fails in partial-config mode, the
commands that ran are make defconfig and make kvmconfig, nothing ran after the
failure, its error is returned, and the invariant holds of this run. -/
theorem C3_abort_invariant_witness :
    commandsOf (newEvents w0 (BuildWithPartConfig kvmFailEnv "k" "gcc" "CONFIG_X=y\n" w0).2) =
      [(cmdDefconfig "k", none),
       (cmdKvmconfig "k", some { msg := "make kvmconfig: exit status 2", notExist := false })] ∧
    (BuildWithPartConfig kvmFailEnv "k" "gcc" "CONFIG_X=y\n" w0).1 =
      some { msg := "make kvmconfig: exit status 2", notExist := false } ∧
    AbortInvariant (partConfigSteps kvmFailEnv "k" "gcc")
      (commandsOf (newEvents w0 (BuildWithPartConfig kvmFailEnv "k" "gcc" "CONFIG_X=y\n" w0).2))
      (BuildWithPartConfig kvmFailEnv "k" "gcc" "CONFIG_X=y\n" w0).1 :=
  ⟨by decide, by decide, (C3_abort_invariant kvmFailEnv "k" "gcc" "CONFIG_X=y\n" w0).2⟩

/-- Claim C10: step order and timeouts of a fully successful build.  When the
fragment write succeeds and every external command that runs succeeds,
BuildWithPartConfig runs exactly five commands in the build directory, in this
order: make defconfig, make kvmconfig,
scripts/kconfig/merge_config.sh -n .config (the fragment file syz.config of
the build directory, as filepath.Join names it) and make olddefconfig, each
with a timeout of 10 minutes, then make bzImage -j (CPU count) CC=(compiler)
with a timeout of 3 hours, and returns no error.  When the configuration copy
succeeds and every external command that runs succeeds, Build runs exactly the
last two of these and returns no error. -/
theorem C10_step_order_and_timeouts (env : Env) (dir compiler : String) (w : World) :
    (∀ fragment : String,
      ⟨.writeFile (filepathJoin dir "syz.config") fragment, none⟩ ∈
        newEvents w (BuildWithPartConfig env dir compiler fragment w).2 →
      (∀ x ∈ commandsOf (newEvents w (BuildWithPartConfig env dir compiler fragment w).2),
        x.2 = none) →
      commandsOf (newEvents w (BuildWithPartConfig env dir compiler fragment w).2) =
        [(Cmd.mk (10 * Minute) dir "make" ["defconfig"], none),
         (Cmd.mk (10 * Minute) dir "make" ["kvmconfig"], none),
         (Cmd.mk (10 * Minute) dir "scripts/kconfig/merge_config.sh"
            ["-n", ".config", filepathJoin dir "syz.config"], none),
         (Cmd.mk (10 * Minute) dir "make" ["olddefconfig"], none),
         (Cmd.mk (3 * Hour) dir "make"
            ["bzImage", "-j", strconvItoa env.numCPU, "CC=" ++ compiler], none)] ∧
      (BuildWithPartConfig env dir compiler fragment w).1 = none) ∧
    (∀ config : String,
      ⟨.copyFile config (filepathJoin dir ".config"), none⟩ ∈
        newEvents w (Build env dir compiler config w).2 →
      (∀ x ∈ commandsOf (newEvents w (Build env dir compiler config w).2), x.2 = none) →
      commandsOf (newEvents w (Build env dir compiler config w).2) =
        [(Cmd.mk (10 * Minute) dir "make" ["olddefconfig"], none),
         (Cmd.mk (3 * Hour) dir "make"
            ["bzImage", "-j", strconvItoa env.numCPU, "CC=" ++ compiler], none)] ∧
      (Build env dir compiler config w).1 = none) := by
  constructor
  · intro fragment hwrite hran
    rcases BuildWithPartConfig_shape env dir compiler fragment w with
      ⟨e, _, _, ht⟩ | ⟨evs, r5, hp, ht, _, _⟩
    · rw [newEvents_of_trace w _ _ ht] at hwrite
      simp at hwrite
    · rw [newEvents_of_trace w _ _ ht] at hran ⊢
      have hc : commandsOf ([⟨.remove (filepathJoin dir ".config"),
            (osRemove env (filepathJoin dir ".config") w).1⟩,
          ⟨.writeFile (filepathJoin dir "syz.config") fragment, none⟩] ++ evs ++
          [⟨.remove (filepathJoin dir "syz.config"), r5⟩]) = commandsOf evs := by
        simp [commandsOf_append, commandsOf]
      rw [hc] at hran ⊢
      obtain ⟨h1, h2⟩ := pipelineEvents_of_ran_ok env _ _ _ hp hran
      refine ⟨?_, h1⟩
      rw [h2, commandsOf_okRun]
      rfl
  · intro config hcopy hran
    rcases Build_shape env dir compiler config w with
      ⟨e, _, _, ht⟩ | ⟨evs, _, _, _, _, hp, ht⟩
    · rw [newEvents_of_trace w _ _ ht] at hcopy
      simp at hcopy
    · rw [newEvents_of_trace w _ _ ht] at hran ⊢
      have hc : commandsOf (⟨.copyFile config (filepathJoin dir ".config"), none⟩ :: evs) =
          commandsOf evs := rfl
      rw [hc] at hran ⊢
      obtain ⟨h1, h2⟩ := pipelineEvents_of_ran_ok env _ _ _ hp hran
      refine ⟨?_, h1⟩
      rw [h2, commandsOf_okRun]
      rfl

/-- Claim C10, witness: the commands of a build in which nothing fails. -/
theorem C10_step_order_and_timeouts_witness :
    (commandsOf (newEvents w0 (BuildWithPartConfig okEnv "k" "gcc" "CONFIG_X=y\n" w0).2) =
      [(Cmd.mk 600000000000 "k" "make" ["defconfig"], none),
       (Cmd.mk 600000000000 "k" "make" ["kvmconfig"], none),
       (Cmd.mk 600000000000 "k" "scripts/kconfig/merge_config.sh"
          ["-n", ".config", "k/syz.config"], none),
       (Cmd.mk 600000000000 "k" "make" ["olddefconfig"], none),
       (Cmd.mk 10800000000000 "k" "make" ["bzImage", "-j", "4", "CC=gcc"], none)] ∧
      (BuildWithPartConfig okEnv "k" "gcc" "CONFIG_X=y\n" w0).1 = none) ∧
    (commandsOf (newEvents w0 (Build okEnv "k" "gcc" "cfg" w0).2) =
      [(Cmd.mk 600000000000 "k" "make" ["olddefconfig"], none),
       (Cmd.mk 10800000000000 "k" "make" ["bzImage", "-j", "4", "CC=gcc"], none)] ∧
      (Build okEnv "k" "gcc" "cfg" w0).1 = none) :=
  ⟨(C10_step_order_and_timeouts okEnv "k" "gcc" w0).1 "CONFIG_X=y\n" (by decide) (by decide),
    (C10_step_order_and_timeouts okEnv "k" "gcc" w0).2 "cfg" (by decide) (by decide)⟩

/-- Claim C4: Build copies the given configuration to dir/.config before any build
command.  The copy to dir/.config is the first effect of the call and every
later effect is an external command.  When the copy fails, nothing else
happens and Build fails with the error failed to write config file: (cause).
When it succeeds, the commands run in a world whose dir/.config holds exactly
the bytes of the given configuration. -/
theorem C4_config_written_first (env : Env) (dir compiler config : String) (w : World) :
    ∃ (r : Option Error) (rest : List Event),
      newEvents w (Build env dir compiler config w).2 =
        ⟨.copyFile config (filepathJoin dir ".config"), r⟩ :: rest ∧
      (∀ ev ∈ rest, ∃ c, ev.op = .run c) ∧
      (∀ cause, r = some cause →
        rest = [] ∧
        (Build env dir compiler config w).1 =
          some { msg := "failed to write config file: " ++ cause.msg, notExist := false }) ∧
      (r = none →
        ∃ data mode, w.fs config = some (.file data mode) ∧
          (⟨w.fs.put (filepathJoin dir ".config") (.file data mode),
            w.trace ++ [⟨.copyFile config (filepathJoin dir ".config"), none⟩]⟩ : World).fs
              (filepathJoin dir ".config") = some (.file data mode) ∧
          Build env dir compiler config w =
            build env dir compiler
              ⟨w.fs.put (filepathJoin dir ".config") (.file data mode),
                w.trace ++ [⟨.copyFile config (filepathJoin dir ".config"), none⟩]⟩) := by
  rcases Build_shape env dir compiler config w with
    ⟨e, _, hr, ht⟩ | ⟨evs, data, mode, hs, hB, hp, ht⟩
  · refine ⟨some e, [], newEvents_of_trace w _ _ ht, by simp, ?_, by simp⟩
    intro cause hc
    cases hc
    exact ⟨rfl, hr⟩
  · refine ⟨none, evs, newEvents_of_trace w _ _ ht, ?_, by simp, ?_⟩
    · intro ev hev
      rcases hp with ⟨_, h2⟩ | ⟨k, c, e, w1, _, _, _, h2⟩
      · rw [h2] at hev
        obtain ⟨c, _, rfl⟩ := List.mem_map.mp hev
        exact ⟨c, rfl⟩
      · rw [h2] at hev
        rcases List.mem_append.mp hev with h | h
        · obtain ⟨c, _, rfl⟩ := List.mem_map.mp h
          exact ⟨c, rfl⟩
        · rw [List.mem_singleton.mp h]
          exact ⟨c, rfl⟩
    · intro _
      exact ⟨data, mode, hs, by simp [FS.put], hB⟩

/-- Claim C4, witness: a build in which nothing fails starts with the copy, and
the commands run with the configuration in place. -/
theorem C4_config_written_first_witness :
    ∃ rest, newEvents w0 (Build okEnv "k" "gcc" "cfg" w0).2 =
        ⟨.copyFile "cfg" "k/.config", none⟩ :: rest ∧
      (∀ ev ∈ rest, ∃ c, ev.op = .run c) ∧
      Build okEnv "k" "gcc" "cfg" w0 =
        build okEnv "k" "gcc"
          ⟨fs0.put "k/.config" (.file "CONFIG_X=y\n" 0o644),
            [⟨.copyFile "cfg" "k/.config", none⟩]⟩ := by
  obtain ⟨r, rest, hev, hrun, _, hok⟩ := C4_config_written_first okEnv "k" "gcc" "cfg" w0
  have h2 : (newEvents w0 (Build okEnv "k" "gcc" "cfg" w0).2).head? =
      some ⟨.copyFile "cfg" "k/.config", none⟩ := by decide
  have hr : r = none := by
    rw [hev] at h2
    simp only [List.head?_cons, Option.some.injEq, Event.mk.injEq] at h2
    exact h2.2
  subst hr
  obtain ⟨data, mode, hs, _, hB⟩ := hok rfl
  have hs2 : w0.fs "cfg" = some (.file "CONFIG_X=y\n" 0o644) := by decide
  rw [hs2] at hs
  simp only [Option.some.injEq, Node.file.injEq] at hs
  obtain ⟨rfl, rfl⟩ := hs
  exact ⟨rest, hev, hrun, hB⟩

/-! ## Partial-config mode: claims C7 and C9 -/

/-- Claim C7, counterexample: in a run where the system refuses the deferred
removal, the fragment file that the call wrote is still on disk after the
call has returned (here with success). -/
theorem C7_counterexample :
    w0.fs "k/syz.config" = none ∧
    ⟨.writeFile "k/syz.config" "CONFIG_X=y\n", none⟩ ∈
      newEvents w0 (BuildWithPartConfig stuckEnv "k" "gcc" "CONFIG_X=y\n" w0).2 ∧
    (BuildWithPartConfig stuckEnv "k" "gcc" "CONFIG_X=y\n" w0).1 = none ∧
    (BuildWithPartConfig stuckEnv "k" "gcc" "CONFIG_X=y\n" w0).2.fs "k/syz.config" =
      some (.file "CONFIG_X=y\n" 0o640) := by
  decide

/-- Claim C7, amended: in every run of BuildWithPartConfig in which the fragment
was written, the last effect of the call is the removal of dir/syz.config,
whether the merge step and the other steps succeeded or failed.  The result
of that removal is dropped: the call returns what the steps before it
returned, that is, no error exactly when every command that ran succeeded.
When the removal succeeded the file no longer exists after the call. -/
theorem C7_fragment_removal_is_last (env : Env) (dir compiler config : String) (w : World)
    (hw : ⟨.writeFile (filepathJoin dir "syz.config") config, none⟩ ∈
      newEvents w (BuildWithPartConfig env dir compiler config w).2) :
    ∃ r : Option Error,
      (newEvents w (BuildWithPartConfig env dir compiler config w).2).getLast? =
        some ⟨.remove (filepathJoin dir "syz.config"), r⟩ ∧
      (BuildWithPartConfig env dir compiler config w).1 =
        (BuildWithPartConfig.body env dir compiler (filepathJoin dir "syz.config")
          (10 * Minute)
          (osutilWriteFile env (filepathJoin dir "syz.config") config
            (osRemove env (filepathJoin dir ".config") w).2).2).1 ∧
      ((BuildWithPartConfig env dir compiler config w).1 = none ↔
        ∀ x ∈ commandsOf (newEvents w (BuildWithPartConfig env dir compiler config w).2),
          x.2 = none) ∧
      (r = none →
        (BuildWithPartConfig env dir compiler config w).2.fs (filepathJoin dir "syz.config") =
          none) := by
  rcases BuildWithPartConfig_shape env dir compiler config w with
    ⟨e, _, _, ht⟩ | ⟨evs, r5, hp, ht, hfs, hret⟩
  · rw [newEvents_of_trace w _ _ ht] at hw
    simp at hw
  · refine ⟨r5, ?_, hret, ?_, hfs⟩
    · rw [newEvents_of_trace w _ _ ht]
      exact List.getLast?_concat _
    · rw [newEvents_of_trace w _ _ ht]
      have hc : commandsOf ([⟨.remove (filepathJoin dir ".config"),
            (osRemove env (filepathJoin dir ".config") w).1⟩,
          ⟨.writeFile (filepathJoin dir "syz.config") config, none⟩] ++ evs ++
          [⟨.remove (filepathJoin dir "syz.config"), r5⟩]) = commandsOf evs := by
        simp [commandsOf_append, commandsOf]
      rw [hc]
      exact pipelineEvents_ret_iff env _ _ _ hp

/-- Claim C7, witness: a run in which nothing fails ends with the removal of the
fragment, and a run in which that removal is refused still returns no
error. -/
theorem C7_fragment_removal_is_last_witness :
    (∃ r : Option Error,
      (newEvents w0 (BuildWithPartConfig okEnv "k" "gcc" "CONFIG_X=y\n" w0).2).getLast? =
        some ⟨.remove (filepathJoin "k" "syz.config"), r⟩) ∧
    (BuildWithPartConfig stuckEnv "k" "gcc" "CONFIG_X=y\n" w0).1 = none := by
  obtain ⟨r, h1, _, _, _⟩ :=
    C7_fragment_removal_is_last okEnv "k" "gcc" "CONFIG_X=y\n" w0 (by decide)
  obtain ⟨_, _, _, h3, _⟩ :=
    C7_fragment_removal_is_last stuckEnv "k" "gcc" "CONFIG_X=y\n" w0 (by decide)
  exact ⟨⟨r, h1⟩, h3.mpr (by decide)⟩

/-- Claim C9, counterexample: the removal of an existing dir/.config fails with an
error that is not a not-found error (permission denied), and
BuildWithPartConfig goes on and returns no error. -/
theorem C9_counterexample :
    (newEvents w9 (BuildWithPartConfig deniedEnv "k" "gcc" "CONFIG_X=y\n" w9).2).head? =
      some ⟨.remove "k/.config",
        some { msg := "remove k/.config: permission denied", notExist := false }⟩ ∧
    (BuildWithPartConfig deniedEnv "k" "gcc" "CONFIG_X=y\n" w9).1 = none := by
  decide

/-- Claim C9, amended: BuildWithPartConfig drops the result of the removal of
dir/.config, whatever it is, a not-found error or any other error: the
next effect is always the write of the fragment, and the error the call
returns, if any, is the wrapped error of that write or the error of a command
that ran afterwards. -/
theorem C9_removal_result_dropped (env : Env) (dir compiler config : String) (w : World) :
    ∃ (r1 : Option Error) (rest : List Event),
      newEvents w (BuildWithPartConfig env dir compiler config w).2 =
        ⟨.remove (filepathJoin dir ".config"),
            (osRemove env (filepathJoin dir ".config") w).1⟩ ::
          ⟨.writeFile (filepathJoin dir "syz.config") config, r1⟩ :: rest ∧
      ((BuildWithPartConfig env dir compiler config w).1 = none ∨
        (∃ cause, r1 = some cause ∧
          (BuildWithPartConfig env dir compiler config w).1 =
            some (fmtErrorf "failed to write config file: " cause)) ∨
        (∃ c e, ⟨.run c, some e⟩ ∈ rest ∧
          (BuildWithPartConfig env dir compiler config w).1 = some e)) := by
  rcases BuildWithPartConfig_shape env dir compiler config w with
    ⟨e, _, hr, ht⟩ | ⟨evs, r5, hp, ht, _, _⟩
  · exact ⟨some e, [], newEvents_of_trace w _ _ ht, Or.inr (Or.inl ⟨e, rfl, hr⟩)⟩
  · refine ⟨none, evs ++ [⟨.remove (filepathJoin dir "syz.config"), r5⟩], ?_, ?_⟩
    · rw [newEvents_of_trace w _ _ ht]
      simp
    · rcases hp with ⟨h1, _⟩ | ⟨k, c, e, w1, _, _, h1, h2⟩
      · exact Or.inl h1
      · refine Or.inr (Or.inr ⟨c, e, ?_, h1⟩)
        rw [h2]
        simp

/-! ## The shapes of `CreateImage` -/

theorem osChmod_ok_file (env : Env) (path : String) (mode : Nat) (w : World)
    (data : String) (mode0 : Nat) (hs : w.fs path = some (.file data mode0))
    (h : (osChmod env path mode w).1 = none) :
    (osChmod env path mode w).2.fs path = some (.file data mode) := by
  unfold osChmod at h ⊢
  split at h
  · cases h
  · simp [hs, World.after, FS.put]

theorem CreateImage_body_shape (env : Env) (kernelDir userspaceDir image sshkey d : String)
    (w : World) :
    ∃ evs,
      (CreateImage.body env kernelDir userspaceDir image sshkey d w).2.trace =
        w.trace ++ evs ∧
      BodyShape env kernelDir userspaceDir image sshkey d evs
        (CreateImage.body env kernelDir userspaceDir image sshkey d w).1
        (CreateImage.body env kernelDir userspaceDir image sshkey d w).2.fs := by
  unfold CreateImage.body BodyShape
  simp only [filepathFromSlash]
  have t1 := osutilWriteExecFile_trace env (filepathJoin d "create.sh") env.createImageScript w
  generalize osutilWriteExecFile env (filepathJoin d "create.sh") env.createImageScript w = x1
    at t1 ⊢
  obtain ⟨r1, w1⟩ := x1
  cases r1 with
  | some e => exact ⟨_, t1, Or.inl ⟨e, rfl, rfl⟩⟩
  | none =>
    dsimp only at t1 ⊢
    have t2 := osutilRunCmd_trace env Hour d (filepathJoin d "create.sh")
      [userspaceDir, filepathJoin kernelDir "arch/x86/boot/bzImage"] w1
    generalize osutilRunCmd env Hour d (filepathJoin d "create.sh")
      [userspaceDir, filepathJoin kernelDir "arch/x86/boot/bzImage"] w1 = x2 at t2 ⊢
    obtain ⟨r2, w2⟩ := x2
    cases r2 with
    | error e =>
      refine ⟨_, ?_, Or.inr (Or.inl ⟨e, rfl, rfl⟩)⟩
      dsimp only at t2 ⊢
      rw [t2, t1]
      simp [errOf, opScript, opPackage]
    | ok o =>
      dsimp only at t2 ⊢
      have t3 := osutilCopyFile_trace env (filepathJoin d "disk.raw") image w2
      generalize osutilCopyFile env (filepathJoin d "disk.raw") image w2 = x3 at t3 ⊢
      obtain ⟨r3, w3⟩ := x3
      cases r3 with
      | some e =>
        refine ⟨_, ?_, Or.inr (Or.inr (Or.inl ⟨e, rfl, rfl⟩))⟩
        dsimp only at t3 ⊢
        rw [t3, t2, t1]
        simp [errOf, opScript, opPackage, opCopyImage]
      | none =>
        dsimp only at t3 ⊢
        have t4 := osutilCopyFile_trace env (filepathJoin d "key") sshkey w3
        have f4 := osutilCopyFile_ok env (filepathJoin d "key") sshkey w3
        generalize osutilCopyFile env (filepathJoin d "key") sshkey w3 = x4 at t4 f4 ⊢
        obtain ⟨r4, w4⟩ := x4
        cases r4 with
        | some e =>
          refine ⟨_, ?_, Or.inr (Or.inr (Or.inr (Or.inl ⟨e, rfl, rfl⟩)))⟩
          dsimp only at t4 ⊢
          rw [t4, t3, t2, t1]
          simp [errOf, opScript, opPackage, opCopyImage, opCopyKey]
        | none =>
          dsimp only at t4 f4 ⊢
          obtain ⟨data, mode0, _, hw4⟩ := f4 rfl
          have hs4 : w4.fs sshkey = some (.file data mode0) := by
            have := congrArg (fun x => x.2.fs sshkey) hw4
            simpa [FS.put] using this
          have t5 := osChmod_trace env sshkey 0o600 w4
          have f5 := osChmod_ok_file env sshkey 0o600 w4 data mode0 hs4
          generalize osChmod env sshkey 0o600 w4 = x5 at t5 f5 ⊢
          obtain ⟨r5, w5⟩ := x5
          cases r5 with
          | some e =>
            refine ⟨_, ?_, Or.inr (Or.inr (Or.inr (Or.inr (Or.inl ⟨e, rfl, rfl⟩))))⟩
            dsimp only at t5 ⊢
            rw [t5, t4, t3, t2, t1]
            simp [errOf, opScript, opPackage, opCopyImage, opCopyKey]
          | none =>
            refine ⟨_, ?_, Or.inr (Or.inr (Or.inr (Or.inr (Or.inr ⟨rfl, rfl, data, f5 rfl⟩))))⟩
            dsimp only at t5 ⊢
            rw [t5, t4, t3, t2, t1]
            simp [errOf, opScript, opPackage, opCopyImage, opCopyKey]

theorem ioutilTempDir_ok (env : Env) (dir pattern : String) (w : World) (d : String)
    (h : (ioutilTempDir env dir pattern w).1 = .ok d) : d = env.tempName w := by
  unfold ioutilTempDir at h
  split at h
  · cases h
  · split at h
    · cases h
    · cases h
      rfl

/-- The shapes of a run of `CreateImage`: the scratch directory cannot be
created and nothing else happens, or it is created, the body runs in it, and
the removal of the scratch directory is the last effect. -/
theorem CreateImage_shape (env : Env) (kernelDir userspaceDir image sshkey : String)
    (w : World) :
    (∃ e, (CreateImage env kernelDir userspaceDir image sshkey w).1 = some e ∧
      (CreateImage env kernelDir userspaceDir image sshkey w).2.trace =
        w.trace ++ [⟨.tempDir "" "syz-build", some e⟩]) ∨
    (∃ evs rr fs,
      BodyShape env kernelDir userspaceDir image sshkey (env.tempName w) evs
        (CreateImage env kernelDir userspaceDir image sshkey w).1 fs ∧
      (CreateImage env kernelDir userspaceDir image sshkey w).2.trace =
        w.trace ++ (⟨.tempDir "" "syz-build", none⟩ :: evs ++
          [⟨.removeAll (env.tempName w), rr⟩]) ∧
      (rr = none → ∀ p, isUnder (env.tempName w) p = true →
        (CreateImage env kernelDir userspaceDir image sshkey w).2.fs p = none) ∧
      (CreateImage env kernelDir userspaceDir image sshkey w).1 =
        (CreateImage.body env kernelDir userspaceDir image sshkey (env.tempName w)
          (ioutilTempDir env "" "syz-build" w).2).1 ∧
      (∀ p, isUnder (env.tempName w) p = false →
        (CreateImage env kernelDir userspaceDir image sshkey w).2.fs p = fs p)) := by
  unfold CreateImage
  have t0 := ioutilTempDir_trace env "" "syz-build" w
  have f0 := ioutilTempDir_ok env "" "syz-build" w
  generalize ioutilTempDir env "" "syz-build" w = x0 at t0 f0 ⊢
  obtain ⟨r0, w1⟩ := x0
  cases r0 with
  | error e => exact Or.inl ⟨e, rfl, t0⟩
  | ok d =>
    right
    dsimp only at t0 f0 ⊢
    have hd := f0 d rfl
    subst hd
    obtain ⟨evs, ht, hb⟩ := CreateImage_body_shape env kernelDir userspaceDir image sshkey
      (env.tempName w) w1
    generalize CreateImage.body env kernelDir userspaceDir image sshkey (env.tempName w) w1 = rb
      at ht hb ⊢
    refine ⟨evs, (osRemoveAll env (env.tempName w) rb.2).1, rb.2.fs, hb, ?_, ?_, ?_, ?_⟩
    · rw [osRemoveAll_trace, ht, t0]
      simp [errOf]
    · intro hrr p hp
      exact osRemoveAll_ok_fs env _ _ hrr p hp
    · rfl
    · intro p hp
      exact osRemoveAll_fs_outside env _ _ p hp

/-! ## Image assembly: claims C5, C6, C8 -/

/-- Claim C5, counterexample: in a run where the system refuses the removal of the
scratch directory, the directory that the call created, and the files in it,
still exist after the call has returned. -/
theorem C5_counterexample :
    w0.fs "/tmp/syz-build1" = none ∧
    ⟨.tempDir "" "syz-build", none⟩ ∈
      newEvents w0 (CreateImage leakEnv "k" "u" "out/image" "out/key" w0).2 ∧
    (CreateImage leakEnv "k" "u" "out/image" "out/key" w0).2.fs "/tmp/syz-build1" =
      some .dir ∧
    (CreateImage leakEnv "k" "u" "out/image" "out/key" w0).2.fs "/tmp/syz-build1/key" =
      some (.file "KEY" 0o644) := by
  decide

/-- Claim C5, amended: once the scratch directory has been created, the last effect
of CreateImage is the removal of that directory with everything in it, for
every outcome of its steps.  The result of that removal is dropped: the call
returns what the steps before it returned, that is, no error exactly when
every effect before the removal succeeded.  When the removal succeeded neither
the directory nor anything in it exists after the call. -/
theorem C5_scratch_removal_is_last (env : Env)
    (kernelDir userspaceDir image sshkey : String) (w : World)
    (hd : ⟨.tempDir "" "syz-build", none⟩ ∈
      newEvents w (CreateImage env kernelDir userspaceDir image sshkey w).2) :
    ∃ rr : Option Error,
      (newEvents w (CreateImage env kernelDir userspaceDir image sshkey w).2).getLast? =
        some ⟨.removeAll (env.tempName w), rr⟩ ∧
      (CreateImage env kernelDir userspaceDir image sshkey w).1 =
        (CreateImage.body env kernelDir userspaceDir image sshkey (env.tempName w)
          (ioutilTempDir env "" "syz-build" w).2).1 ∧
      ((CreateImage env kernelDir userspaceDir image sshkey w).1 = none ↔
        ∀ ev ∈ (newEvents w (CreateImage env kernelDir userspaceDir image sshkey w).2).dropLast,
          ev.err = none) ∧
      (rr = none → ∀ p, isUnder (env.tempName w) p = true →
        (CreateImage env kernelDir userspaceDir image sshkey w).2.fs p = none) := by
  rcases CreateImage_shape env kernelDir userspaceDir image sshkey w with
    ⟨e, _, ht⟩ | ⟨evs, rr, fs, hb, ht, hfs, hret, _⟩
  · rw [newEvents_of_trace w _ _ ht] at hd
    simp at hd
  · refine ⟨rr, ?_, hret, ?_, hfs⟩
    · rw [newEvents_of_trace w _ _ ht]
      exact List.getLast?_concat _
    · rw [newEvents_of_trace w _ _ ht, List.dropLast_concat]
      rcases hb with ⟨e, he, hev⟩ | ⟨e, he, hev⟩ | ⟨e, he, hev⟩ | ⟨e, he, hev⟩ |
        ⟨e, he, hev⟩ | ⟨he, hev, _⟩ <;> rw [he, hev] <;> simp

/-- Claim C5, witness: a run in which nothing fails ends with the removal of the
scratch directory, and a run in which that removal is refused still returns no
error. -/
theorem C5_scratch_removal_is_last_witness :
    (∃ rr : Option Error,
      (newEvents w0 (CreateImage okEnv "k" "u" "out/image" "out/key" w0).2).getLast? =
        some ⟨.removeAll (okEnv.tempName w0), rr⟩) ∧
    (CreateImage leakEnv "k" "u" "out/image" "out/key" w0).1 = none := by
  obtain ⟨rr, h1, _, _, _⟩ :=
    C5_scratch_removal_is_last okEnv "k" "u" "out/image" "out/key" w0 (by decide)
  obtain ⟨_, _, _, h3, _⟩ :=
    C5_scratch_removal_is_last leakEnv "k" "u" "out/image" "out/key" w0 (by decide)
  exact ⟨⟨rr, h1⟩, h3.mpr (by decide)⟩

/-- Claim C6: in every successful run of CreateImage the effects are, in order: the
creation of the scratch directory, the script write, the packaging script, the
image copy, the key copy, the chmod of sshkey to 0600 right after the key
copy, all successful, and the removal of the scratch directory.  After the
call the key file at sshkey, a destination outside the scratch directory, has
mode 0600, whatever the mode of the key that the script produced. -/
theorem C6_key_mode_0600 (env : Env) (kernelDir userspaceDir image sshkey : String)
    (w : World)
    (hok : (CreateImage env kernelDir userspaceDir image sshkey w).1 = none) :
    (∃ rr, newEvents w (CreateImage env kernelDir userspaceDir image sshkey w).2 =
      [⟨.tempDir "" "syz-build", none⟩,
       ⟨.writeExecFile (filepathJoin (env.tempName w) "create.sh") env.createImageScript, none⟩,
       ⟨.run (Cmd.mk Hour (env.tempName w) (filepathJoin (env.tempName w) "create.sh")
          [userspaceDir, filepathJoin kernelDir "arch/x86/boot/bzImage"]), none⟩,
       ⟨.copyFile (filepathJoin (env.tempName w) "disk.raw") image, none⟩,
       ⟨.copyFile (filepathJoin (env.tempName w) "key") sshkey, none⟩,
       ⟨.chmod sshkey 0o600, none⟩,
       ⟨.removeAll (env.tempName w), rr⟩]) ∧
    (isUnder (env.tempName w) sshkey = false →
      ∃ data, (CreateImage env kernelDir userspaceDir image sshkey w).2.fs sshkey =
        some (.file data 0o600)) := by
  rcases CreateImage_shape env kernelDir userspaceDir image sshkey w with
    ⟨e, he, _⟩ | ⟨evs, rr, fs, hb, ht, _, _, hout⟩
  · rw [hok] at he
    cases he
  · rw [hok] at hb
    rcases hb with ⟨e, he, _⟩ | ⟨e, he, _⟩ | ⟨e, he, _⟩ | ⟨e, he, _⟩ | ⟨e, he, _⟩ |
      ⟨_, hev, data, hfs⟩
    · cases he
    · cases he
    · cases he
    · cases he
    · cases he
    · constructor
      · refine ⟨rr, ?_⟩
        rw [newEvents_of_trace w _ _ ht, hev]
        rfl
      · intro hu
        exact ⟨data, by rw [hout sshkey hu, hfs]⟩

/-- Claim C6, witness: the script leaves a key with mode 0644 and the key at the
destination has mode 0600. -/
theorem C6_key_mode_0600_witness :
    (scriptFS w0.fs) "/tmp/syz-build1/key" = some (.file "KEY" 0o644) ∧
    ∃ data, (CreateImage okEnv "k" "u" "out/image" "out/key" w0).2.fs "out/key" =
      some (.file data 0o600) :=
  ⟨by decide,
    (C6_key_mode_0600 okEnv "k" "u" "out/image" "out/key" w0 (by decide)).2 (by decide)⟩

/-- Claim C8, counterexample: the image copy succeeds, the key copy fails, and
CreateImage returns the error with the image destination, which did not exist
before the call, created and left in place. -/
theorem C8_counterexample :
    w0.fs "out/image" = none ∧
    (CreateImage keyFailEnv "k" "u" "out/image" "out/key" w0).1 =
      some { msg := "open out/key.tmp: permission denied", notExist := false } ∧
    (CreateImage keyFailEnv "k" "u" "out/image" "out/key" w0).2.fs "out/image" =
      some (.file "DISK" 0o644) := by
  decide

/-- Claim C8, amended: whenever CreateImage returns an error, either no copy made
by the call has succeeded (the failing step is the creation of the scratch
directory, the script write, the packaging script or the image copy), or the
image has been copied to its destination and the failing step is the key
copy, or both artifacts have been copied and the failing step is the chmod;
in the last two cases the only later effect is the removal of the scratch
directory, so what was copied stays. -/
theorem C8_outputs_on_error (env : Env) (kernelDir userspaceDir image sshkey : String)
    (w : World) (e : Error)
    (herr : (CreateImage env kernelDir userspaceDir image sshkey w).1 = some e) :
    (∀ ev ∈ newEvents w (CreateImage env kernelDir userspaceDir image sshkey w).2,
      ∀ s t, ev.op = .copyFile s t → ev.err ≠ none) ∨
    (∃ pre rr, newEvents w (CreateImage env kernelDir userspaceDir image sshkey w).2 =
      pre ++ [⟨.copyFile (filepathJoin (env.tempName w) "disk.raw") image, none⟩,
        ⟨.copyFile (filepathJoin (env.tempName w) "key") sshkey, some e⟩,
        ⟨.removeAll (env.tempName w), rr⟩]) ∨
    (∃ pre rr, newEvents w (CreateImage env kernelDir userspaceDir image sshkey w).2 =
      pre ++ [⟨.copyFile (filepathJoin (env.tempName w) "disk.raw") image, none⟩,
        ⟨.copyFile (filepathJoin (env.tempName w) "key") sshkey, none⟩,
        ⟨.chmod sshkey 0o600, some e⟩,
        ⟨.removeAll (env.tempName w), rr⟩]) := by
  rcases CreateImage_shape env kernelDir userspaceDir image sshkey w with
    ⟨e1, _, ht⟩ | ⟨evs, rr, fs, hb, ht, _, _, _⟩
  · left
    rw [newEvents_of_trace w _ _ ht]
    intro ev hev s t hop
    simp only [List.mem_singleton] at hev
    subst hev
    cases hop
  · rw [newEvents_of_trace w _ _ ht]
    rw [herr] at hb
    rcases hb with ⟨e1, _, hev⟩ | ⟨e1, _, hev⟩ | ⟨e1, _, hev⟩ | ⟨e1, he, hev⟩ | ⟨e1, he, hev⟩ |
      ⟨he, _, _⟩
    · left
      subst hev
      intro ev hev s t hop
      simp only [List.cons_append, List.nil_append, List.mem_cons, List.mem_singleton,
        List.not_mem_nil, or_false] at hev
      rcases hev with rfl | rfl | rfl <;>
        simp [opScript, opPackage, opCopyImage] at hop ⊢
    · left
      subst hev
      intro ev hev s t hop
      simp only [List.cons_append, List.nil_append, List.mem_cons, List.mem_singleton,
        List.not_mem_nil, or_false] at hev
      rcases hev with rfl | rfl | rfl | rfl <;>
        simp [opScript, opPackage, opCopyImage] at hop ⊢
    · left
      subst hev
      intro ev hev s t hop
      simp only [List.cons_append, List.nil_append, List.mem_cons, List.mem_singleton,
        List.not_mem_nil, or_false] at hev
      rcases hev with rfl | rfl | rfl | rfl | rfl <;>
        simp [opScript, opPackage, opCopyImage] at hop ⊢
    · right
      left
      cases he
      subst hev
      exact ⟨[⟨.tempDir "" "syz-build", none⟩, ⟨opScript env (env.tempName w), none⟩,
        ⟨opPackage kernelDir userspaceDir (env.tempName w), none⟩], rr, rfl⟩
    · right
      right
      cases he
      subst hev
      exact ⟨[⟨.tempDir "" "syz-build", none⟩, ⟨opScript env (env.tempName w), none⟩,
        ⟨opPackage kernelDir userspaceDir (env.tempName w), none⟩], rr, rfl⟩
    · cases he

/-- Claim C8, witness: when the key copy fails, the image copy before it has
succeeded. -/
theorem C8_outputs_on_error_witness :
    ∃ pre rr, newEvents w0 (CreateImage keyFailEnv "k" "u" "out/image" "out/key" w0).2 =
      pre ++ [⟨.copyFile "/tmp/syz-build1/disk.raw" "out/image", none⟩,
        ⟨.copyFile "/tmp/syz-build1/key" "out/key",
          some { msg := "open out/key.tmp: permission denied", notExist := false }⟩,
        ⟨.removeAll "/tmp/syz-build1", rr⟩] := by
  rcases C8_outputs_on_error keyFailEnv "k" "u" "out/image" "out/key" w0
      { msg := "open out/key.tmp: permission denied", notExist := false } (by decide) with
    h | h | ⟨pre, rr, h⟩
  · exact absurd rfl (h ⟨.copyFile "/tmp/syz-build1/disk.raw" "out/image", none⟩ (by decide)
      _ _ rfl)
  · exact h
  · have hm : (⟨.chmod "out/key" 0o600,
        some { msg := "open out/key.tmp: permission denied", notExist := false }⟩ : Event) ∈
        newEvents w0 (CreateImage keyFailEnv "k" "u" "out/image" "out/key" w0).2 := by
      rw [h]
      simp
    exact absurd hm (by decide)

end kernel
